import Mathlib

/-!
Verification development for the bulk e-mail broadcaster
(`app/services/mailer.py`, `app/config.py`, `webapp/forms.py`).

Strings are modelled at the `List Char` level (ASCII fragment of Python's
`str`); the mailer-side model uses Lean `String` for opaque addresses and
error messages.  Python escapes that the source relies on (`\t`, `\n`,
`\v`, `\f`, `\r`) are written via `Char.ofNat` code points.
-/

/-! ### Character and string utilities (Python `str` primitives) -/

/-- Horizontal tab, code point 9. -/
def charTab : Char := Char.ofNat 9

/-- Line feed, code point 10. -/
def charLF : Char := Char.ofNat 10

/-- Vertical tab, code point 11. -/
def charVT : Char := Char.ofNat 11

/-- Form feed, code point 12. -/
def charFF : Char := Char.ofNat 12

/-- Carriage return, code point 13. -/
def charCR : Char := Char.ofNat 13

/-- The ASCII whitespace characters that Python's `str.strip()` removes and
that `\s` matches in the source's `re.split` patterns. -/
def isPyWS (c : Char) : Bool :=
  c = ' ' || c = charTab || c = charLF || c = charCR || c = charVT || c = charFF

/-- Python `str.strip()` (ASCII whitespace). -/
def stripList (cs : List Char) : List Char :=
  ((cs.dropWhile isPyWS).reverse.dropWhile isPyWS).reverse

/-- ASCII lower-casing of one character, as Python `str.lower()` does on the
ASCII range. -/
def lowerChar (c : Char) : Char :=
  if 'A' ≤ c ∧ c ≤ 'Z' then Char.ofNat (c.toNat + 32) else c

/-- Python `str.lower()` (ASCII fragment). -/
def lowerList (cs : List Char) : List Char := cs.map lowerChar

/-- Number of occurrences of the token `x` in a list of tokens. -/
def countOcc (x : List Char) : List (List Char) → Nat
  | [] => 0
  | y :: ys => (if y = x then 1 else 0) + countOcc x ys

/-- Number of occurrences of the character `sep` in a string. -/
def countChar (sep : Char) : List Char → Nat
  | [] => 0
  | c :: cs => (if c = sep then 1 else 0) + countChar sep cs

/-- Python `str.split(sep)` for a one-character separator: splits at every
occurrence of `sep`, keeping empty segments (so the result always has
`countChar sep cs + 1` segments). -/
def splitOnChar (sep : Char) : List Char → List (List Char)
  | [] => [[]]
  | c :: cs =>
    if c = sep then [] :: splitOnChar sep cs
    else (c :: (splitOnChar sep cs).headD []) :: (splitOnChar sep cs).tail

/-- Does `pat` occur at the very start of `text`? (Python `str.startswith`.) -/
def beginsWith : List Char → List Char → Bool
  | [], _ => true
  | _ :: _, [] => false
  | p :: ps, c :: cs => p = c && beginsWith ps cs

/-- Python's substring test `pat in text`. -/
def containsSub (pat : List Char) (text : List Char) : Bool :=
  match text with
  | [] => beginsWith pat []
  | c :: cs => beginsWith pat (c :: cs) || containsSub pat cs

lemma countChar_append (sep : Char) (xs ys : List Char) :
    countChar sep (xs ++ ys) = countChar sep xs + countChar sep ys := by
  induction xs with
  | nil => simp [countChar]
  | cons c cs ih => simp [countChar, ih]; omega

lemma splitOnChar_ne_nil (sep : Char) (cs : List Char) : splitOnChar sep cs ≠ [] := by
  cases cs with
  | nil => simp [splitOnChar]
  | cons c cs =>
    by_cases h : c = sep <;> simp [splitOnChar, h]

lemma splitOnChar_length (sep : Char) (cs : List Char) :
    (splitOnChar sep cs).length = countChar sep cs + 1 := by
  induction cs with
  | nil => simp [splitOnChar, countChar]
  | cons c cs ih =>
    by_cases h : c = sep
    · simp [splitOnChar, countChar, h, ih]; omega
    · have hne := splitOnChar_ne_nil sep cs
      have hpos : 0 < (splitOnChar sep cs).length := List.length_pos.mpr hne
      simp only [splitOnChar, countChar, if_neg h]
      simp only [List.length_cons, List.length_tail]
      omega

/-! ### `webapp/forms.py` — the EMAIL_RE grammar

The source compiles the anchored regex

    EMAIL_RE = ^[a-zA-Z0-9.!#$%&'*+/=?^_`{|}~-]+@
               [a-zA-Z0-9](?:[a-zA-Z0-9-]{0,61}[a-zA-Z0-9])?
               (?:\.[a-zA-Z0-9](?:[a-zA-Z0-9-]{0,61}[a-zA-Z0-9])?)*$

Neither character class contains `@` and the pattern has exactly one literal
`@`, so a matching string contains exactly one `@`; splitting there, the
local part is a nonempty run of local-class characters and the domain is a
dot-separated nonempty sequence of labels, each label being 1–63 characters
from `[a-zA-Z0-9-]` that starts and ends with an alphanumeric.  Python's
`re.match` with a trailing `$` also accepts one extra line feed at the very
end of the string; `emailReMatch` keeps that behaviour. -/

/-- Membership in the regex's local-part class
`[a-zA-Z0-9.!#$%&'*+/=?^_`{|}~-]`.  Code points 39, 96, 123 and 125 are the
apostrophe, backtick and curly-brace characters of that class. -/
def isLocalChar (c : Char) : Bool :=
  c.isAlphanum || c = '.' || c = '!' || c = '#' || c = '$' || c = '%' || c = '&' ||
  c.toNat = 39 || c = '*' || c = '+' || c = '/' || c = '=' || c = '?' || c = '^' ||
  c = '_' || c.toNat = 96 || c.toNat = 123 || c = '|' || c.toNat = 125 || c = '~' || c = '-'

/-- Membership in the regex's domain-label inner class `[a-zA-Z0-9-]`. -/
def isLabelChar (c : Char) : Bool := c.isAlphanum || c = '-'

/-- One DNS label of the domain:
`[a-zA-Z0-9](?:[a-zA-Z0-9-]{0,61}[a-zA-Z0-9])?` — 1 to 63 characters from
`[a-zA-Z0-9-]`, first and last alphanumeric. -/
def labelOk (l : List Char) : Bool :=
  !l.isEmpty && l.length ≤ 63 && (l.headD '-').isAlphanum &&
    (l.getLastD '-').isAlphanum && l.all isLabelChar

/-- The regex's domain: one label followed by any number of `.`-label groups,
i.e. every `.`-separated segment is a valid label (and there is at least
one segment, possibly empty — an empty segment fails `labelOk`). -/
def domainOk (d : List Char) : Bool := (splitOnChar '.' d).all labelOk

/-- Full-string match of EMAIL_RE (without the trailing-newline allowance of
`$`): exactly one `@`, nonempty local part of local-class characters,
valid domain. -/
def emailFull (cs : List Char) : Bool :=
  match splitOnChar '@' cs with
  | [l, d] => !l.isEmpty && l.all isLocalChar && domainOk d
  | _ => false

/-- `EMAIL_RE.match(s)` on the whole string: the pattern is anchored with
`^ … $`, and Python's `$` also matches just before one final newline. -/
def emailReMatch (cs : List Char) : Bool :=
  emailFull cs ||
    (match cs.reverse with
     | [] => false
     | c :: rest => if c = charLF then emailFull rest.reverse else false)

/-- `DISPOSABLE_DOMAINS` from `webapp/forms.py`. -/
def DISPOSABLE_DOMAINS : List (List Char) :=
  ["tempmail.com".data, "throwaway.email".data, "guerrillamail.com".data,
   "10minutemail.com".data, "mailinator.com".data]

/-- The `block_disposable` step of `RecipientForm.validate_email`:

    if self.block_disposable:
        domain = email.split('@')[1].lower()
        if domain in DISPOSABLE_DOMAINS:
            return False, f"Disposable email domain not allowed: ..."

`none` models the `IndexError` that `split('@')[1]` would raise when the
string has no `@`; `some (some r)` is the rejection, `some none` means the
step passed (or was skipped). -/
def disposableCheck (blockDisposable : Bool) (email : List Char) :
    Option (Option String) :=
  if blockDisposable then
    match (splitOnChar '@' email).get? 1 with
    | none => none
    | some d =>
      if lowerList d ∈ DISPOSABLE_DOMAINS then
        some (some ("Disposable email domain not allowed: " ++ String.mk (lowerList d)))
      else some none
  else some none

/-- `RecipientForm.MAX_EMAIL_LENGTH`. -/
def MAX_EMAIL_LENGTH : Nat := 254

/-- `RecipientForm.validate_email(email) -> (is_valid, error_message)`,
translated branch by branch:

    if len(email) > self.MAX_EMAIL_LENGTH: return False, "Email too long ..."
    if not EMAIL_RE.match(email):          return False, "Invalid email format"
    if self.block_disposable: ...          (see `disposableCheck`)
    if ".." in email:                      return False, "Consecutive dots not allowed"
    local, domain = email.split('@')
    if not local or not domain:            return False, "Missing local or domain part"
    if '.' not in domain:                  return False, "Domain must have a TLD"
    return True, None

The result is wrapped in `Option`: `none` models an uncaught exception
(the two-element unpacking of `email.split('@')` raising `ValueError`, or
the `[1]` index raising `IndexError`); `some (ok, reason)` is a normal
return. -/
def validate_email (blockDisposable : Bool) (email : List Char) :
    Option (Bool × Option String) :=
  if MAX_EMAIL_LENGTH < email.length then
    some (false, some "Email too long (max 254 chars)")
  else if emailReMatch email = false then
    some (false, some "Invalid email format")
  else
    match disposableCheck blockDisposable email with
    | none => none
    | some (some reason) => some (false, some reason)
    | some none =>
      if containsSub ['.', '.'] email then
        some (false, some "Consecutive dots not allowed")
      else
        match splitOnChar '@' email with
        | [l, d] =>
          if l.isEmpty || d.isEmpty then
            some (false, some "Missing local or domain part")
          else if '.' ∉ d then
            some (false, some "Domain must have a TLD")
          else some (true, none)
        | _ => none

/-- Did `validate_email` return normally with `(False, reason)` and a
non-empty reason string? -/
def isRejected : Option (Bool × Option String) → Bool
  | some (false, some m) => if m = "" then false else true
  | _ => false

lemma emailFull_split (cs : List Char) (h : emailFull cs = true) :
    ∃ l d, splitOnChar '@' cs = [l, d] := by
  unfold emailFull at h
  rcases hs : splitOnChar '@' cs with _ | ⟨l, _ | ⟨d, _ | ⟨x, xs⟩⟩⟩ <;>
    rw [hs] at h <;> simp at h
  exact ⟨l, d, rfl⟩

lemma split2_countChar (sep : Char) (cs : List Char) (l d : List Char)
    (h : splitOnChar sep cs = [l, d]) : countChar sep cs = 1 := by
  have := splitOnChar_length sep cs
  rw [h] at this
  simp at this
  omega

lemma emailReMatch_split (cs : List Char) (h : emailReMatch cs = true) :
    ∃ l d, splitOnChar '@' cs = [l, d] := by
  unfold emailReMatch at h
  rcases Bool.or_eq_true_iff.mp h with h1 | h2
  · exact emailFull_split cs h1
  · rcases hr : cs.reverse with _ | ⟨c, rest⟩ <;> rw [hr] at h2
    · simp at h2
    · have h2' : (if c = charLF then emailFull rest.reverse else false) = true := h2
      by_cases hc : c = charLF
      · rw [if_pos hc] at h2'
        obtain ⟨l, d, hs⟩ := emailFull_split _ h2'
        have hcount : countChar '@' rest.reverse = 1 := split2_countChar _ _ _ _ hs
        have hcs : cs = rest.reverse ++ [c] := by
          have hrr : cs.reverse.reverse = (c :: rest).reverse := by rw [hr]
          simpa [List.reverse_cons] using hrr
        have hcount2 : countChar '@' cs = 1 := by
          rw [hcs, countChar_append, hcount]
          subst hc
          have hne : (charLF = '@') = False := by decide
          simp [countChar, hne]
        have hlen : (splitOnChar '@' cs).length = 2 := by
          rw [splitOnChar_length, hcount2]
        exact List.length_eq_two.mp hlen
      · rw [if_neg hc] at h2'
        exact absurd h2' (by simp)

/-- C9 — `RecipientForm.validate_email` is total on arbitrary string input:
it always returns a `(bool, optional reason)` pair and never raises.  The
two-element unpacking of `email.split('@')` and the index
`email.split('@')[1]` are reached only after `EMAIL_RE` has matched, which
forces the string to contain exactly one `@`, so the exception branches
(modelled by `none`) are unreachable. -/
theorem validate_email_total (blockDisposable : Bool) (email : List Char) :
    (validate_email blockDisposable email).isSome = true := by
  by_cases hlen : MAX_EMAIL_LENGTH < email.length
  · simp [validate_email, hlen]
  · by_cases hm : emailReMatch email = true
    · obtain ⟨l, d, hs⟩ := emailReMatch_split email hm
      have hd : disposableCheck blockDisposable email = some none ∨
          ∃ r, disposableCheck blockDisposable email = some (some r) := by
        unfold disposableCheck
        cases blockDisposable
        · simp
        · rw [if_pos rfl, hs]
          simp only [List.get?]
          split
          · right; exact ⟨_, rfl⟩
          · left; rfl
      rcases hd with hd | ⟨r, hd⟩ <;>
          simp only [validate_email, if_neg hlen, hm, Bool.true_eq_false, hd, hs] <;>
          repeat first | rfl | split
    · have hm' : emailReMatch email = false := by
        cases h : emailReMatch email
        · rfl
        · exact absurd h hm
      simp [validate_email, hlen, hm']

/-- C8 — the per-address syntax check rejects `"not-an-email"`, `"a@@b.com"`,
`"a..b@c.com"`, and every address longer than 254 characters, returning
`(False, reason)` with a non-empty reason for each
(`RecipientForm.validate_email` with the form's default
`block_disposable=True`). -/
theorem validate_email_rejections :
    isRejected (validate_email true "not-an-email".data) = true ∧
    isRejected (validate_email true "a@@b.com".data) = true ∧
    isRejected (validate_email true "a..b@c.com".data) = true ∧
    ∀ e : List Char, MAX_EMAIL_LENGTH < e.length →
      isRejected (validate_email true e) = true := by
  refine ⟨by decide, by decide, by decide, ?_⟩
  intro e he
  unfold validate_email
  rw [if_pos he]
  decide

set_option maxRecDepth 2000 in
/-- Witness for `validate_email_rejections`: a concrete address of length 255
is rejected with a reason. -/
theorem validate_email_rejections_witness :
    MAX_EMAIL_LENGTH < (List.replicate 255 'a').length ∧
    isRejected (validate_email true (List.replicate 255 'a')) = true :=
  ⟨by decide, validate_email_rejections.2.2.2 (List.replicate 255 'a') (by decide)⟩

/-! ### `webapp/forms.py` — `RecipientForm.flatten_addresses`

The source splits the raw text with `re.split(r"[,;\n\s]+", self.addresses)`,
then per token strips, lower-cases, discards empties, and (when
`self.deduplicate` is set) keeps only the first occurrence of each token:

    for token in tokens:
        token = token.strip().lower()
        if not token: continue
        if self.deduplicate:
            if token in seen: continue
            seen.add(token)
        addresses.append(token)

`splitSeps` splits at every single separator character instead of at maximal
separator runs; the two differ only in extra empty tokens, which the loop
discards, so the resulting address list is the same. -/

/-- A character of the separator class `[,;\n\s]` (ASCII). -/
def isSepChar (c : Char) : Bool := c = ',' || c = ';' || isPyWS c

/-- Tokenization of the raw recipients text. -/
def splitSeps : List Char → List (List Char)
  | [] => [[]]
  | c :: cs =>
    if isSepChar c then [] :: splitSeps cs
    else (c :: (splitSeps cs).headD []) :: (splitSeps cs).tail

/-- Per-token normalization `token.strip().lower()`. -/
def normalizeTok (t : List Char) : List Char := lowerList (stripList t)

/-- The token loop of `flatten_addresses`; `seen` is the already-emitted set
(Python builds the set incrementally, so it is the set of earlier kept
tokens). -/
def flattenGo (dedup : Bool) : List (List Char) → List (List Char) → List (List Char)
  | [], _ => []
  | t :: ts, seen =>
    if normalizeTok t = [] then flattenGo dedup ts seen
    else if dedup then
      if normalizeTok t ∈ seen then flattenGo dedup ts seen
      else normalizeTok t :: flattenGo dedup ts (normalizeTok t :: seen)
    else normalizeTok t :: flattenGo dedup ts seen

/-- `RecipientForm.flatten_addresses` with the `deduplicate` flag of the
form. -/
def flatten_addresses (dedup : Bool) (text : List Char) : List (List Char) :=
  flattenGo dedup (splitSeps text) []

lemma flattenGo_true_cons (t : List Char) (ts seen : List (List Char)) :
    flattenGo true (t :: ts) seen
      = if normalizeTok t = [] then flattenGo true ts seen
        else if normalizeTok t ∈ seen then flattenGo true ts seen
        else normalizeTok t :: flattenGo true ts (normalizeTok t :: seen) := by
  by_cases h0 : normalizeTok t = [] <;> simp [flattenGo, h0]

lemma flattenGo_count (x : List Char) (hx : x ≠ []) :
    ∀ (ts seen : List (List Char)),
      countOcc x (flattenGo true ts seen)
        = if (∃ t ∈ ts, normalizeTok t = x) ∧ x ∉ seen then 1 else 0 := by
  intro ts
  induction ts with
  | nil =>
    intro seen
    simp [flattenGo, countOcc]
  | cons t ts ih =>
    intro seen
    rw [flattenGo_true_cons]
    by_cases h0 : normalizeTok t = []
    · rw [if_pos h0, ih]
      have hiff : ((∃ u ∈ t :: ts, normalizeTok u = x) ∧ x ∉ seen)
          ↔ ((∃ u ∈ ts, normalizeTok u = x) ∧ x ∉ seen) := by
        constructor
        · rintro ⟨⟨u, hu, hux⟩, hs⟩
          rcases List.mem_cons.mp hu with rfl | hu
          · exact absurd (h0.symm.trans hux).symm hx
          · exact ⟨⟨u, hu, hux⟩, hs⟩
        · rintro ⟨⟨u, hu, hux⟩, hs⟩
          exact ⟨⟨u, List.mem_cons_of_mem _ hu, hux⟩, hs⟩
      rw [if_congr hiff rfl rfl]
    · rw [if_neg h0]
      by_cases hseen : normalizeTok t ∈ seen
      · rw [if_pos hseen, ih]
        have hiff : ((∃ u ∈ t :: ts, normalizeTok u = x) ∧ x ∉ seen)
            ↔ ((∃ u ∈ ts, normalizeTok u = x) ∧ x ∉ seen) := by
          constructor
          · rintro ⟨⟨u, hu, hux⟩, hs⟩
            rcases List.mem_cons.mp hu with rfl | hu
            · exact absurd (hux ▸ hseen) hs
            · exact ⟨⟨u, hu, hux⟩, hs⟩
          · rintro ⟨⟨u, hu, hux⟩, hs⟩
            exact ⟨⟨u, List.mem_cons_of_mem _ hu, hux⟩, hs⟩
        rw [if_congr hiff rfl rfl]
      · rw [if_neg hseen]
        show (if normalizeTok t = x then 1 else 0) + _ = _
        rw [ih]
        by_cases htx : normalizeTok t = x
        · rw [if_pos htx]
          rw [if_neg, if_pos]
          · exact ⟨⟨t, List.mem_cons_self t ts, htx⟩, htx ▸ hseen⟩
          · rintro ⟨-, hnot⟩
            exact hnot (htx ▸ List.mem_cons_self _ _)
        · rw [if_neg htx]
          have hiff : ((∃ u ∈ ts, normalizeTok u = x) ∧ x ∉ normalizeTok t :: seen)
              ↔ ((∃ u ∈ t :: ts, normalizeTok u = x) ∧ x ∉ seen) := by
            constructor
            · rintro ⟨⟨u, hu, hux⟩, hs⟩
              refine ⟨⟨u, List.mem_cons_of_mem _ hu, hux⟩, fun hmem => hs ?_⟩
              exact List.mem_cons_of_mem _ hmem
            · rintro ⟨⟨u, hu, hux⟩, hs⟩
              rcases List.mem_cons.mp hu with rfl | hu
              · exact absurd hux htx
              · refine ⟨⟨u, hu, hux⟩, fun hmem => ?_⟩
                rcases List.mem_cons.mp hmem with rfl | hmem
                · exact htx rfl
                · exact hs hmem
          rw [if_congr hiff rfl rfl]
          omega

lemma flattenGo_no_empty (dedup : Bool) :
    ∀ (ts seen : List (List Char)), [] ∉ flattenGo dedup ts seen := by
  intro ts
  induction ts with
  | nil => intro seen; simp [flattenGo]
  | cons t ts ih =>
    intro seen
    by_cases h0 : normalizeTok t = []
    · simpa [flattenGo, h0] using ih seen
    · cases dedup
      · have hred : flattenGo false (t :: ts) seen
            = normalizeTok t :: flattenGo false ts seen := by
          simp [flattenGo, h0]
        rw [hred]
        intro hmem
        rcases List.mem_cons.mp hmem with h | h
        · exact h0 h.symm
        · exact ih seen h
      · by_cases hseen : normalizeTok t ∈ seen
        · have hred : flattenGo true (t :: ts) seen = flattenGo true ts seen := by
            simp [flattenGo, h0, hseen]
          rw [hred]
          exact ih seen
        · have hred : flattenGo true (t :: ts) seen
              = normalizeTok t :: flattenGo true ts (normalizeTok t :: seen) := by
            simp [flattenGo, h0, hseen]
          rw [hred]
          intro hmem
          rcases List.mem_cons.mp hmem with h | h
          · exact h0 h.symm
          · exact ih _ h

/-- C7 — normalization deduplicates by trimmed lower-case form, keeping the
first occurrence: for any raw input whose token list contains both
`"a@x.com"` and `"A@X.com"` (the trailing space of the spec's
`"A@X.com "` is a separator, so tokenization already consumes it), the
flattened list with deduplication enabled contains exactly one entry equal
to `"a@x.com"`, and no empty token survives. -/
theorem flatten_addresses_dedup (raw : List Char)
    (h1 : "a@x.com".data ∈ splitSeps raw)
    (h2 : "A@X.com".data ∈ splitSeps raw) :
    countOcc "a@x.com".data (flatten_addresses true raw) = 1 ∧
    [] ∉ flatten_addresses true raw := by
  constructor
  · rw [flatten_addresses, flattenGo_count "a@x.com".data (by decide), if_pos]
    exact ⟨⟨"a@x.com".data, h1, by decide⟩, by simp⟩
  · exact flattenGo_no_empty true (splitSeps raw) []

/-- Witness for `flatten_addresses_dedup` on the spec's concrete input. -/
theorem flatten_addresses_dedup_witness :
    countOcc "a@x.com".data (flatten_addresses true "a@x.com, A@X.com ".data) = 1 ∧
    [] ∉ flatten_addresses true "a@x.com, A@X.com ".data :=
  flatten_addresses_dedup "a@x.com, A@X.com ".data (by decide) (by decide)

/-! ### `app/services/mailer.py` — `validate_recipients` -/

/-- `validate_recipients(addresses)`:

    valid = []
    for address in addresses:
        trimmed = address.strip()
        if "@" in trimmed:
            valid.append(trimmed)
        else:
            logger.warning("Skipped invalid address: %s", address)
    return valid

The warning log has no effect on the returned list and is not modelled. -/
def validate_recipients : List (List Char) → List (List Char)
  | [] => []
  | a :: rest =>
    if '@' ∈ stripList a then stripList a :: validate_recipients rest
    else validate_recipients rest

/-- An address of length 255 that contains `@`: rejected by the boundary
validator (its length exceeds 254) but accepted by `validate_recipients`. -/
def addr255 : List Char := 'a' :: '@' :: List.replicate 253 'b'

set_option maxRecDepth 4000 in
/-- C10 — `validate_recipients` returns exactly the trimmed forms of the
input addresses that contain `@`, in input order, and applies no other
syntax rule: in particular `"a@@b"` and the length-255 address `addr255`,
both rejected by the boundary validator `validate_email`, pass through
unchanged. -/
theorem validate_recipients_spec (addresses : List (List Char)) :
    validate_recipients addresses
      = ((addresses.map stripList).filter fun t => decide ('@' ∈ t)) ∧
    validate_recipients ["a@@b".data] = ["a@@b".data] ∧
    isRejected (validate_email true "a@@b".data) = true ∧
    validate_recipients [addr255] = [addr255] ∧
    isRejected (validate_email true addr255) = true := by
  refine ⟨?_, by decide, by decide, ?_, ?_⟩
  · induction addresses with
    | nil => rfl
    | cons a rest ih =>
      by_cases h : '@' ∈ stripList a <;>
        simp [validate_recipients, List.filter, h, ih]
  · show validate_recipients [addr255] = [addr255]
    have h : '@' ∈ stripList addr255 := by decide
    have hstrip : stripList addr255 = addr255 := by decide
    have hmem : '@' ∈ addr255 := hstrip ▸ h
    simp [validate_recipients, h, hstrip, hmem]
  · have hlen : MAX_EMAIL_LENGTH < addr255.length := by
      simp only [addr255, MAX_EMAIL_LENGTH, List.length_cons, List.length_replicate]
      omega
    exact validate_email_rejections.2.2.2 addr255 hlen

/-! ### `webapp/forms.py` — `BroadcastForm` concurrency handling

`BroadcastForm.__init__` stores

    self.concurrency_raw = self.sanitize_input(formdata.get("concurrency", ""), 10)
                           or str(self.DEFAULT_CONCURRENCY)

and `BroadcastForm.validate` then runs

    try:
        concurrency_val = int(self.concurrency_raw)
        if concurrency_val < self.MIN_CONCURRENCY:   self.concurrency = self.MIN_CONCURRENCY
        elif concurrency_val > self.MAX_CONCURRENCY: self.concurrency = self.MAX_CONCURRENCY
        else:                                        self.concurrency = concurrency_val
    except ValueError:
        self.concurrency = self.DEFAULT_CONCURRENCY

`pyIntParse` models Python's `int(str)` on the ASCII fragment: surrounding
whitespace, an optional sign, then decimal digits with optional single
underscore separators between digits; anything else raises `ValueError`
(modelled as `none`). -/

/-- `BroadcastForm.MIN_CONCURRENCY`. -/
def MIN_CONCURRENCY : Int := 1

/-- `BroadcastForm.MAX_CONCURRENCY`. -/
def MAX_CONCURRENCY : Int := 500

/-- `BroadcastForm.DEFAULT_CONCURRENCY`. -/
def FORM_DEFAULT_CONCURRENCY : Int := 50

/-- Value of one decimal digit character. -/
def digitVal (c : Char) : Nat := c.toNat - 48

/-- Digit tail of an integer literal: digits with optional single
underscores strictly between digits. -/
def digitsGo (acc : Nat) : List Char → Option Nat
  | [] => some acc
  | '_' :: c :: rest =>
    if c.isDigit then digitsGo (acc * 10 + digitVal c) rest else none
  | c :: rest =>
    if c.isDigit then digitsGo (acc * 10 + digitVal c) rest else none

/-- A nonempty digit sequence (underscore separators allowed inside). -/
def parseDigits : List Char → Option Nat
  | [] => none
  | c :: rest => if c.isDigit then digitsGo (digitVal c) rest else none

/-- Python `int(s)` for a decimal string (ASCII fragment). -/
def pyIntParse (cs : List Char) : Option Int :=
  match stripList cs with
  | '+' :: rest => (parseDigits rest).map fun n => (n : Int)
  | '-' :: rest => (parseDigits rest).map fun n => -(n : Int)
  | rest => (parseDigits rest).map fun n => (n : Int)

/-- `BaseForm.sanitize_input(value, max_length)`: strip, then truncate to
`max_length` characters when longer. -/
def sanitize_input (value : List Char) (maxLength : Option Nat) : List Char :=
  match maxLength with
  | some m => if m < (stripList value).length then (stripList value).take m else stripList value
  | none => stripList value

/-- The `concurrency_raw` field as `BroadcastForm.__init__` computes it;
`none` models an absent form field (Python `formdata.get` default `""`). -/
def concurrency_raw (field : Option (List Char)) : List Char :=
  if sanitize_input (field.getD []) (some 10) = [] then "50".data
  else sanitize_input (field.getD []) (some 10)

/-- The concurrency-validation step of `BroadcastForm.validate` (the value
stored in `self.concurrency`; the `add_error` side effect of the
`ValueError` branch is not modelled). -/
def validate_concurrency (raw : List Char) : Int :=
  match pyIntParse raw with
  | some n =>
    if n < MIN_CONCURRENCY then MIN_CONCURRENCY
    else if n > MAX_CONCURRENCY then MAX_CONCURRENCY
    else n
  | none => FORM_DEFAULT_CONCURRENCY

/-- `self.concurrency` after `BroadcastForm.validate` for a given submitted
concurrency field. -/
def broadcast_form_concurrency (field : Option (List Char)) : Int :=
  validate_concurrency (concurrency_raw field)

/-- C6 counterexample — the submitted field `"00000000500"` parses as the
integer 500 (within [1, 500], so the claim requires `self.concurrency`
to be set to 500), but `sanitize_input` truncates the field to its first
10 characters before parsing, so the form stores 50. -/
theorem broadcast_form_concurrency_cex :
    pyIntParse "00000000500".data = some 500 ∧
    broadcast_form_concurrency (some "00000000500".data) = 50 ∧
    (50 : Int) ≠ 500 := by
  refine ⟨by decide, by decide, by decide⟩

/-- C6 amended — for every form submission whose concurrency field, after
trimming and truncation to its first 10 characters, parses as an integer
`n`, `BroadcastForm.validate` sets `self.concurrency` to 1 when `n < 1`,
to 500 when `n > 500`, and to `n` otherwise; when the field is absent or
unparsable, the stored concurrency is the default 50. -/
theorem broadcast_form_concurrency_amended (field : Option (List Char)) :
    (∀ n : Int, pyIntParse (concurrency_raw field) = some n →
      broadcast_form_concurrency field
        = if n < 1 then 1 else if n > 500 then 500 else n) ∧
    (pyIntParse (concurrency_raw field) = none →
      broadcast_form_concurrency field = 50) ∧
    broadcast_form_concurrency none = 50 := by
  refine ⟨?_, ?_, by decide⟩
  · intro n hn
    unfold broadcast_form_concurrency validate_concurrency
    rw [hn]
    rfl
  · intro hn
    unfold broadcast_form_concurrency validate_concurrency
    rw [hn]
    rfl

/-- Witness for `broadcast_form_concurrency_amended` at the concrete field
`"7"`. -/
theorem broadcast_form_concurrency_amended_witness :
    broadcast_form_concurrency (some "7".data) = 7 := by
  have h := (broadcast_form_concurrency_amended (some "7".data)).1 7 (by decide)
  rw [h]
  decide

/-! ### `app/services/mailer.py` — `BulkMailer`

`BulkMailer.send_async` computes

    limit = max(1, concurrency or DEFAULT_CONCURRENCY)
    semaphore = asyncio.Semaphore(limit)
    async def worker(address):
        async with semaphore:
            await self._send_one(address, message)
            if progress_hook: progress_hook(address)
    await asyncio.gather(*(worker(address) for address in recipients))

and `_send_one` re-raises every transport exception after optionally
logging an authentication hint:

    except Exception as e:
        error_msg = str(e)
        if "535" in error_msg or "BadCredentials" in error_msg or "not accepted" in error_msg:
            logger.error("SMTP Authentication failed. ...")
        raise

The transport is abstracted as a function `String → Except String Unit`
(the error value is `str(e)`).  The cooperative scheduler is modelled
deterministically: worker tasks are created in recipient order and each
transport attempt is one atomic step, so attempts run in FIFO order;
`asyncio.gather` is used WITHOUT `return_exceptions`, so when any attempt
raises, the first raised exception propagates out of `send_async` (the
model keeps the first failing attempt's raw error as the run's result).
The semaphore limit never changes which attempts run in this atomic-step
model, only their overlap, so it is recorded but does not influence the
attempt sequence.  The Python coroutine is annotated `-> None` and has no
return statement; its returned value is modelled as an
`Option DispatchOutcome` whose actual value is always `none`, so that the
return shape the specification describes can be stated. -/

/-- `DEFAULT_CONCURRENCY` from `app/config.py`
(`int(os.getenv("DEFAULT_CONCURRENCY", "50"))`, modelled at its default
environment value 50). -/
def DEFAULT_CONCURRENCY : Int := 50

/-- The semaphore limit `max(1, concurrency or DEFAULT_CONCURRENCY)`;
Python's `or` takes the default when `concurrency` is `None` or `0`
(both falsy). -/
def effective_limit (concurrency : Option Int) : Int :=
  max 1 (match concurrency with
         | none => DEFAULT_CONCURRENCY
         | some c => if c = 0 then DEFAULT_CONCURRENCY else c)

/-- The substring test of `_send_one`'s except-branch. -/
def isAuthHint (e : String) : Bool :=
  containsSub "535".data e.data || containsSub "BadCredentials".data e.data ||
    containsSub "not accepted".data e.data

/-- Modelled from the spec: `DispatchOutcome = {total, succeeded,
failedList: [(address, classifiedReason)]}`.  No such value exists
anywhere in the code; the structure is introduced only so that claims
about the specified return shape can be stated. -/
structure DispatchOutcome where
  total : Nat
  succeeded : Nat
  failedList : List (String × String)
deriving DecidableEq

instance : DecidableEq (Except String Unit) := fun a b =>
  match a, b with
  | Except.ok (), Except.ok () => isTrue rfl
  | Except.error e1, Except.error e2 =>
    if h : e1 = e2 then isTrue (by rw [h])
    else isFalse (fun hc => h (by injection hc))
  | Except.ok (), Except.error _ => isFalse (fun hc => Except.noConfusion hc)
  | Except.error _, Except.ok () => isFalse (fun hc => Except.noConfusion hc)

/-- Observable behaviour of one broadcast run: the propagated result
(`Except.error e` models `send_async` raising `e`), the transport attempts
in execution order, the progress-hook invocations in execution order, and
the error messages for which `_send_one` logged the authentication hint. -/
structure RunResult where
  result : Except String Unit
  attempts : List String
  progress : List String
  authHints : List String
deriving DecidableEq

/-- The deterministic rendering of the gathered worker tasks: attempts run
in recipient order; a successful attempt invokes the progress hook; a
failing attempt logs the auth hint when the error text matches and makes
the run's overall result that (first) raw error. -/
def sendLoop (transport : String → Except String Unit) : List String → RunResult
  | [] => ⟨Except.ok (), [], [], []⟩
  | a :: rest =>
    match transport a with
    | Except.ok _ =>
      ⟨(sendLoop transport rest).result, a :: (sendLoop transport rest).attempts,
        a :: (sendLoop transport rest).progress, (sendLoop transport rest).authHints⟩
    | Except.error e =>
      ⟨Except.error e, a :: (sendLoop transport rest).attempts,
        (sendLoop transport rest).progress,
        if isAuthHint e then e :: (sendLoop transport rest).authHints
        else (sendLoop transport rest).authHints⟩

/-- `BulkMailer.send_async(recipients, message, concurrency, progress_hook)`:
the semaphore limit, the run behaviour, and the returned value (always
`None` in the code, hence `none`). -/
def send_async (transport : String → Except String Unit) (recipients : List String)
    (concurrency : Option Int) : Int × RunResult × Option DispatchOutcome :=
  (effective_limit concurrency, sendLoop transport recipients, none)

/-- C4 counterexample — `concurrency = 0` is falsy in Python, so
`0 or DEFAULT_CONCURRENCY` yields the default 50 and the effective limit
is 50, not the 1 the claim requires for `concurrencyLimit < 1`. -/
theorem effective_limit_cex :
    effective_limit (some 0) = 50 ∧ (50 : Int) ≠ 1 := by
  refine ⟨by decide, by decide⟩

/-- C4 amended — the engine clamps every nonzero concurrency to
`[1, +inf)`: the effective limit equals `c` when `c ≥ 1` and `1` when
`c < 0`; but `c = 0` (like `None`) is falsy in `concurrency or
DEFAULT_CONCURRENCY`, so the default 50 is used instead of clamping to 1. -/
theorem effective_limit_amended (c : Int) :
    (1 ≤ c → effective_limit (some c) = c) ∧
    (c < 0 → effective_limit (some c) = 1) ∧
    effective_limit (some 0) = DEFAULT_CONCURRENCY ∧
    effective_limit none = DEFAULT_CONCURRENCY := by
  refine ⟨fun h => ?_, fun h => ?_, by decide, by decide⟩
  · show max 1 (if c = 0 then DEFAULT_CONCURRENCY else c) = c
    rw [if_neg (by omega), max_def]
    split <;> omega
  · show max 1 (if c = 0 then DEFAULT_CONCURRENCY else c) = 1
    rw [if_neg (by omega), max_def]
    split <;> omega

/-- Witness for `effective_limit_amended` at concrete limits 3 and -2. -/
theorem effective_limit_amended_witness :
    effective_limit (some 3) = 3 ∧ effective_limit (some (-2)) = 1 :=
  ⟨(effective_limit_amended 3).1 (by decide),
   (effective_limit_amended (-2)).2.1 (by decide)⟩

/-- Did the transport attempt succeed? -/
def exceptOk : Except String Unit → Bool
  | Except.ok _ => true
  | Except.error _ => false

lemma sendLoop_attempts (t : String → Except String Unit) :
    ∀ rs, (sendLoop t rs).attempts = rs := by
  intro rs
  induction rs with
  | nil => rfl
  | cons a rest ih => cases h : t a <;> simp [sendLoop, h, ih]

lemma sendLoop_progress (t : String → Except String Unit) :
    ∀ rs, (sendLoop t rs).progress = rs.filter fun a => exceptOk (t a) := by
  intro rs
  induction rs with
  | nil => rfl
  | cons a rest ih =>
    cases h : t a <;> simp [sendLoop, h, ih, List.filter_cons, exceptOk]

lemma sendLoop_result_ok_iff (t : String → Except String Unit) :
    ∀ rs, ((sendLoop t rs).result = Except.ok () ↔ ∀ a ∈ rs, t a = Except.ok ()) := by
  intro rs
  induction rs with
  | nil => simp [sendLoop]
  | cons a rest ih =>
    cases h : t a with
    | ok u =>
      cases u
      simp [sendLoop, h, ih, List.forall_mem_cons]
    | error e =>
      simp [sendLoop, h, List.forall_mem_cons]

lemma sendLoop_result_error (t : String → Except String Unit) (e : String) :
    ∀ rs, (sendLoop t rs).result = Except.error e → ∃ a ∈ rs, t a = Except.error e := by
  intro rs
  induction rs with
  | nil => intro h; exact absurd h (by simp [sendLoop])
  | cons a rest ih =>
    intro h
    cases ht : t a with
    | ok u =>
      simp only [sendLoop, ht] at h
      obtain ⟨a0, ha0, he0⟩ := ih h
      exact ⟨a0, List.mem_cons_of_mem _ ha0, he0⟩
    | error e1 =>
      simp only [sendLoop, ht] at h
      have he1 : e1 = e := by injection h
      exact ⟨a, List.mem_cons_self _ _, he1 ▸ ht⟩

lemma sendLoop_authHints (t : String → Except String Unit) :
    ∀ rs, (sendLoop t rs).authHints
      = ((rs.filterMap fun x =>
            match t x with
            | Except.error e1 => some e1
            | Except.ok _ => none).filter isAuthHint) := by
  intro rs
  induction rs with
  | nil => rfl
  | cons a rest ih =>
    cases h : t a with
    | ok u => simp [sendLoop, h, ih, List.filterMap_cons]
    | error e =>
      by_cases hh : isAuthHint e = true <;>
        simp [sendLoop, h, ih, List.filterMap_cons, List.filter_cons, hh]

/-- C2 counterexample — the value `send_async` returns is `None` (the
coroutine has no return statement), not the `DispatchOutcome` record the
claim describes: at the concrete empty-list invocation the returned value
differs from `{total: 0, succeeded: 0, failedList: []}`. -/
theorem send_async_no_outcome_cex :
    (send_async (fun _ => Except.ok ()) [] none).2.2
      ≠ some ⟨0, 0, []⟩ := by
  decide

/-- C2 amended — `send_async` builds no aggregate outcome and returns
`None`; for an empty recipient list it completes normally and immediately,
makes no transport calls, and invokes no progress hook. -/
theorem send_async_empty_run (transport : String → Except String Unit)
    (concurrency : Option Int) :
    (send_async transport [] concurrency).2.1 = ⟨Except.ok (), [], [], []⟩ ∧
    (send_async transport [] concurrency).2.2 = none :=
  ⟨rfl, rfl⟩

/-- The 10-recipient input of the partial-failure scenario. -/
def recips10 : List String :=
  ["r1", "r2", "r3", "r4", "r5", "r6", "r7", "r8", "r9", "r10"]

/-- A transport that fails for exactly recipient number 5. -/
def failAt5 : String → Except String Unit := fun a =>
  if a = "r5" then Except.error "SMTPRecipientsRefused: boom" else Except.ok ()

/-- C1 — evaluation of the code at the claim's failing input: with 10
recipients and a transport failing exactly for recipient 5, `send_async`
does not complete normally — `asyncio.gather` is awaited without
`return_exceptions`, so recipient 5's raw exception propagates out of the
broadcast call and no succeeded count or failure list is produced
(the returned value is the constant `none`); in the deterministic
atomic-step model the other nine recipients are attempted and progressed
exactly once each. -/
theorem send_async_aborts_on_failure :
    (send_async failAt5 recips10 none).2.1.result
      = Except.error "SMTPRecipientsRefused: boom" ∧
    (send_async failAt5 recips10 none).2.1.attempts = recips10 ∧
    (send_async failAt5 recips10 none).2.1.progress
      = ["r1", "r2", "r3", "r4", "r6", "r7", "r8", "r9", "r10"] ∧
    (send_async failAt5 recips10 none).2.2 = none := by
  refine ⟨by decide, by decide, by decide, rfl⟩

/-- C3 counterexample — a single failing attempt halts the broadcast run
(`send_async` propagates the raw error instead of completing), and no
`(address, category)` record is produced: the returned value is `none`. -/
theorem send_async_failure_halts_cex :
    (send_async (fun _ => Except.error "boom") ["a@x.com"] none).2.1.result
      ≠ Except.ok () ∧
    (send_async (fun _ => Except.error "boom") ["a@x.com"] none).2.2 = none := by
  refine ⟨by decide, rfl⟩

/-- C3 amended — when any attempt of a broadcast fails, the run does not
complete normally: the propagated result is the raw error string of some
failing attempt (no mapping into the four categories takes place and
nothing is recorded beside the address); the only inspection of the error
is `_send_one`'s substring test for "535" / "BadCredentials" /
"not accepted", which decides whether the auth-remediation hint is
logged. -/
theorem send_async_error_flow (t : String → Except String Unit) (rs : List String)
    (a : String) (e : String) (ha : a ∈ rs) (he : t a = Except.error e) :
    (send_async t rs none).2.1.result ≠ Except.ok () ∧
    (∃ e0, (send_async t rs none).2.1.result = Except.error e0 ∧
      ∃ a0 ∈ rs, t a0 = Except.error e0) ∧
    (send_async t rs none).2.1.authHints
      = ((rs.filterMap fun x =>
            match t x with
            | Except.error e1 => some e1
            | Except.ok _ => none).filter isAuthHint) := by
  have hne : (sendLoop t rs).result ≠ Except.ok () := by
    intro hok
    have := (sendLoop_result_ok_iff t rs).mp hok a ha
    rw [he] at this
    exact Except.noConfusion this
  refine ⟨hne, ?_, sendLoop_authHints t rs⟩
  cases hr : (sendLoop t rs).result with
  | ok u =>
    cases u
    exact absurd hr hne
  | error e0 =>
    exact ⟨e0, hr, sendLoop_result_error t e0 rs hr⟩

/-- An always-auth-failing transport (SMTP code 535). -/
def authFailT : String → Except String Unit := fun _ =>
  Except.error "535 BadCredentials"

/-- Witness for `send_async_error_flow` at a concrete one-recipient run
with an authentication failure. -/
theorem send_async_error_flow_witness :
    (send_async authFailT ["a@x.com"] none).2.1.result ≠ Except.ok () ∧
    (∃ e0, (send_async authFailT ["a@x.com"] none).2.1.result = Except.error e0 ∧
      ∃ a0 ∈ ["a@x.com"], authFailT a0 = Except.error e0) ∧
    (send_async authFailT ["a@x.com"] none).2.1.authHints
      = ((["a@x.com"].filterMap fun x =>
            match authFailT x with
            | Except.error e1 => some e1
            | Except.ok _ => none).filter isAuthHint) :=
  send_async_error_flow authFailT ["a@x.com"] "a@x.com" "535 BadCredentials"
    (by decide) rfl

/-- C5 — the progress hook fires exactly once per recipient whose transport
attempt succeeded, in execution order, never for a failing recipient, and
the number of invocations equals the number of successful sends
(`worker` calls `progress_hook(address)` only after `_send_one` returns
without raising). -/
theorem progress_hook_successes (t : String → Except String Unit)
    (rs : List String) (concurrency : Option Int) :
    (send_async t rs concurrency).2.1.progress
      = (rs.filter fun a => exceptOk (t a)) ∧
    (send_async t rs concurrency).2.1.progress.length
      = (rs.filter fun a => exceptOk (t a)).length := by
  refine ⟨sendLoop_progress t rs, ?_⟩
  rw [show (send_async t rs concurrency).2.1.progress = (sendLoop t rs).progress from rfl,
    sendLoop_progress t rs]
